import Mathlib

/-!
Verification of the 2D placement (bin-packing) engine of this Cura fork.

The source under verification:
* `src/cura/Arranging/ArrangeObjectsJob.py` — the `arrange_objects` orchestration loop;
* `src/cura/Mesh/MeshHandling.py` — the `process_read_mesh` caller (bounding-box gate,
  skip/break behaviour on failed rasterization);
* `src/cura/CuraCLI.py` — `arrange` (margin computation) and
  `arrangeObjectsToAllBuildPlates` (too-big filter).

The `Arrange` and `ShapeArray` classes (`cura/Arranging/Arrange.py`,
`cura/Arranging/ShapeArray.py`) are imported by the files above but their source is not
part of the checked tree; they are modelled from the specification (definitions marked
`Modelled from the spec:`). Everything else is a direct shallow embedding of the Python.
-/

namespace Cura

/-- Modelled from the spec: `ShapeArray` (cura/Arranging/ShapeArray.py is not in the
checked tree).  A rasterized occupancy mask: `arr` mirrors the 2D numpy boolean array
(`arr.shape[0]` rows by `arr.shape[1]` columns). -/
structure ShapeArray where
  arr : List (List Bool)
deriving DecidableEq

/-- `arr.shape[0]` of the numpy array: number of rows. -/
def ShapeArray.shape0 (s : ShapeArray) : Nat := s.arr.length

/-- `arr.shape[1]` of the numpy array: number of columns (rectangular array). -/
def ShapeArray.shape1 (s : ShapeArray) : Nat := (s.arr.headD []).length

/-- The sort key of `arrange_objects` line 37:
`offset_shape_arr.arr.shape[0] * offset_shape_arr.arr.shape[1]`. -/
def ShapeArray.size (s : ShapeArray) : Nat := s.shape0 * s.shape1

/-- The covered cells of a mask, as `(row, column)` pairs in row-major order. -/
def ShapeArray.cells (s : ShapeArray) : List (Nat × Nat) :=
  (s.arr.enum.map (fun rrow =>
    rrow.2.enum.filterMap (fun cb =>
      if cb.2 then some (rrow.1, cb.1) else none))).flatten

/-- Modelled from the spec: the `PlacementGrid` owned by `Arrange`
(cura/Arranging/Arrange.py is not in the checked tree).  `w × h` cells; `occ` is the
set of occupied cells (as a list), `(x, y)` with `x < w`, `y < h`. -/
structure Grid where
  w : Nat
  h : Nat
  occ : List (Nat × Nat)
deriving DecidableEq

/-- Modelled from the spec: `Arrange.create` — an empty grid of the given dimensions
(fixed footprints, when present, are stamped by `place` before queries). -/
def Grid.create (w h : Nat) : Grid := ⟨w, h, []⟩

/-- Modelled from the spec: the per-cell priority field, a static center-biased
gradient (spec §4.2 allows "a center-biased gradient" as the priority policy):
cells closer to the grid center score higher. -/
def Grid.prio (g : Grid) (c : Nat × Nat) : Nat :=
  (g.w + g.h) -
    ((max c.1 (g.w / 2) - min c.1 (g.w / 2)) + (max c.2 (g.h / 2) - min c.2 (g.h / 2)))

/-- All grid cells in row-major scan order. -/
def Grid.allCells (g : Grid) : List (Nat × Nat) :=
  (List.range g.h).map (fun y => (List.range g.w).map (fun x => (x, y))) |>.flatten

/-- Candidate anchors in descending priority order; the underlying stable sort keeps
row-major scan order among equal-priority cells (spec §4.2 tie-breaking). -/
def Grid.sortedCells (g : Grid) : List (Nat × Nat) :=
  List.insertionSort (fun a b => g.prio b ≤ g.prio a) g.allCells

/-- The grid cell covered by mask cell `rc = (row, col)` when the mask is anchored at
`a = (x, y)`: mask offset plus anchor. -/
def gridCell (a rc : Nat × Nat) : Nat × Nat := (a.1 + rc.2, a.2 + rc.1)

/-- Whether a grid cell is currently occupied. -/
def Grid.isOcc (g : Grid) (c : Nat × Nat) : Bool := decide (c ∈ g.occ)

/-- Overlap test of spec §4.2: for every covered cell in the mask, check the
corresponding grid cell (mask offset + anchor); any occupied hit rejects the anchor. -/
def Grid.overlapsAt (g : Grid) (m : ShapeArray) (a : Nat × Nat) : Bool :=
  m.cells.any (fun rc => g.isOcc (gridCell a rc))

/-- Whether the whole mask stays inside the tracked grid when anchored at `a`
(the plate boundary constrains valid anchors, spec §4.2). -/
def Grid.inBoundsAt (g : Grid) (m : ShapeArray) (a : Nat × Nat) : Bool :=
  m.cells.all (fun rc => decide ((gridCell a rc).1 < g.w) && decide ((gridCell a rc).2 < g.h))

/-- An anchor is accepted when the mask fits the grid there and overlaps nothing. -/
def Grid.fitsAt (g : Grid) (m : ShapeArray) (a : Nat × Nat) : Bool :=
  g.inBoundsAt m a && !(g.overlapsAt m a)

/-- Modelled from the spec: `Arrange.bestSpot(offset_mask, start_prio)` — scan candidate
anchors in descending priority order, first restricted to cells of priority at least
`start_prio`, then (fallback, spec §4.2) over the entire grid; return the first anchor
where the mask fits, with its priority, or the failure sentinel (`none`, i.e. `x = null`).
`bestSpot` never throws: it is a total function. -/
def Grid.bestSpot (g : Grid) (m : ShapeArray) (startPrio : Nat) :
    Option ((Nat × Nat) × Nat) :=
  match (g.sortedCells.filter (fun c => decide (startPrio ≤ g.prio c))).find? (g.fitsAt m) with
  | some c => some (c, g.prio c)
  | none =>
    match g.sortedCells.find? (g.fitsAt m) with
    | some c => some (c, g.prio c)
    | none => none

/-- Modelled from the spec: `Arrange.place(x, y, mask)` — mark every cell covered by the
mask anchored at `(x, y)` occupied; cells outside grid bounds are silently clipped. -/
def Grid.place (g : Grid) (a : Nat × Nat) (m : ShapeArray) : Grid :=
  { g with
    occ := g.occ ++
      (m.cells.map (gridCell a)).filter (fun c => decide (c.1 < g.w) && decide (c.2 < g.h)) }

/-- A sequence of `place` calls applied in order to a grid. -/
def applyPlaces (g : Grid) (ps : List ((Nat × Nat) × ShapeArray)) : Grid :=
  ps.foldl (fun g p => g.place p.1 p.2) g

/-! ## `arrange_objects` (src/cura/Arranging/ArrangeObjectsJob.py)

The loop of lines 30-75, embedded with an explicit ghost event trace recording which
mask is passed to each `bestSpot` query (with its `start_prio`) and which mask is
stamped by each `place` call. -/

/-- One entry of `nodes_arr` (line 37): `(size, node, offset_shape_arr, hull_shape_arr)`
with `size = offset_shape_arr.arr.shape[0] * offset_shape_arr.arr.shape[1]`; the scene
node itself carries no placement-relevant data and is elided. -/
structure AItem where
  size : Nat
  off : ShapeArray
  hull : ShapeArray
deriving DecidableEq

/-- Ghost trace events of the placement loop: a `bestSpot` query with the mask and
`start_prio` it was given, and a `place` stamp with the mask and anchor it was given. -/
inductive AEvent where
  | query (m : ShapeArray) (startPrio : Nat)
  | stamp (m : ShapeArray) (a : Nat × Nat)
deriving DecidableEq

/-- Per-object outcome: a found spot's coordinates, or the fallback translation
`Vector(200, center_y, -not_fit_count * 20)` of line 72 (plate-plane components). -/
inductive PlaceResult where
  | placed (x y : Nat)
  | notFit (x z : Int)
deriving DecidableEq

/-- The mutable loop state of `arrange_objects` lines 44-48: the arranger's grid and
the `last_size` / `last_priority` / `not_fit_count` variables. -/
structure AState where
  grid : Grid
  lastSize : Option Nat
  lastPriority : Nat
  notFitCount : Nat
deriving DecidableEq

/-- One iteration of the loop of lines 49-73: compute `start_priority`
(`last_priority` when `last_size == size`, else 0), query
`arranger.bestSpot(hull_shape_arr, start_prio)` (line 56: the HULL mask); on success
update `last_size` / `last_priority` and `arranger.place(x, y, offset_shape_arr)`
(line 67: the OFFSET mask); on the sentinel, translate to
`(200, -not_fit_count * 20)` and bump `not_fit_count`. -/
def arrangeStep (st : AState) (it : AItem) : AState × List AEvent × PlaceResult :=
  let sp := if st.lastSize = some it.size then st.lastPriority else 0
  match st.grid.bestSpot it.hull sp with
  | some (a, p) =>
    (⟨st.grid.place a it.off, some it.size, p, st.notFitCount⟩,
      [AEvent.query it.hull sp, AEvent.stamp it.off a], PlaceResult.placed a.1 a.2)
  | none =>
    (⟨st.grid, st.lastSize, st.lastPriority, st.notFitCount + 1⟩,
      [AEvent.query it.hull sp], PlaceResult.notFit 200 (-(20 * (st.notFitCount : Int))))

/-- The placement loop over the sorted items, threading the state and collecting the
trace and the per-object results in order. -/
def arrangeGo (st : AState) : List AItem → AState × List AEvent × List PlaceResult
  | [] => (st, [], [])
  | it :: rest =>
    let (st', evs, r) := arrangeStep st it
    let (stf, evsR, rsR) := arrangeGo st' rest
    (stf, evs ++ evsR, r :: rsR)

/-- Lines 30-37: build `nodes_arr`, skipping (`continue`) nodes whose conversion
failed (`offset_shape_arr is None`); each kept node contributes
`(shape[0]*shape[1] of the offset mask, offset mask, hull mask)`.  A node's
`ShapeArray.fromNode` result is the input: `none` when conversion failed. -/
def collectNodes (nodes : List (Option (ShapeArray × ShapeArray))) : List AItem :=
  nodes.filterMap (fun o => o.map (fun p => ⟨p.1.size, p.1, p.2⟩))

/-- Lines 39-41: `nodes_arr.sort(key=lambda item: item[0])` (stable, ascending by
size) followed by `nodes_arr.reverse()`. -/
def sortNodes (l : List AItem) : List AItem :=
  (List.insertionSort (fun a b => a.size ≤ b.size) l).reverse

/-- `arrange_objects(nodes, ...)` over an initial grid (the grid built by
`Arrange.create` from the machine dimensions and fixed nodes): collect, sort
biggest-first, then place one at a time. -/
def arrange_objects (nodes : List (Option (ShapeArray × ShapeArray))) (g0 : Grid) :
    AState × List AEvent × List PlaceResult :=
  arrangeGo ⟨g0, none, 0, 0⟩ (sortNodes (collectNodes nodes))

/-! ## `process_read_mesh` (src/cura/Mesh/MeshHandling.py) and the CuraCLI callers -/

/-- A bounding box as seen by the arrangement callers: planar width and depth. -/
structure BBox where
  width : Int
  depth : Int
deriving DecidableEq

/-- MeshHandling.py line 73, the gate in front of the placement query:
`node.getBoundingBox() is None or build_volume.getBoundingBox() is None or
node.getBoundingBox().width < build_volume.getBoundingBox().width or
node.getBoundingBox().depth < build_volume.getBoundingBox().depth`. -/
def shouldArrange : Option BBox → Option BBox → Bool
  | none, _ => true
  | some _, none => true
  | some n, some v => decide (n.width < v.width) || decide (n.depth < v.depth)

/-- CuraCLI.py line 404 (`arrangeObjectsToAllBuildPlates`): a node is kept for
arrangement when `node.getBoundingBox().width < self._volume.getBoundingBox().width or
node.getBoundingBox().depth < self._volume.getBoundingBox().depth`
("Skip nodes that are too big"). -/
def cliKeepsNode (n v : BBox) : Bool :=
  decide (n.width < v.width) || decide (n.depth < v.depth)

/-- The spec's words, for comparison with the code's gate (spec §6: the bounding-box
test "skip[s] arranging objects already guaranteed to fit without repositioning"):
a node guaranteed to fit has a bounding box no larger than the build volume's. -/
def guaranteedToFit (n v : BBox) : Bool :=
  decide (n.width ≤ v.width) && decide (n.depth ≤ v.depth)

/-- One node as seen by `process_read_mesh`: whether it is sliceable, its bounding
box, and the `ShapeArray.fromNode` result (offset mask, hull mask; `none` when the
model is too small to rasterize). -/
structure RNode where
  sliceable : Bool
  bbox : Option BBox
  offsetArr : Option ShapeArray
  hullArr : Option ShapeArray
deriving DecidableEq

/-- The per-node loop of `process_read_mesh` lines 42-97, restricted to its
arrangement-relevant observables: returns `(new_nodes, arranged)` where `arranged`
lists the nodes for which `arranger.findNodePlacement` was invoked.  Faithful to the
source: a sliceable node passing the line-73 gate whose conversion yields `None` for
BOTH masks hits `break` (line 79), ending the loop — it is neither arranged nor
appended, and no later node is processed. -/
def processReadMesh (vol : Option BBox) : List RNode → List RNode × List RNode
  | [] => ([], [])
  | n :: rest =>
    if n.sliceable && shouldArrange n.bbox vol then
      match n.offsetArr, n.hullArr with
      | none, none => ([], [])
      | _, _ =>
        let (ns, ar) := processReadMesh vol rest
        (n :: ns, n :: ar)
    else
      let (ns, ar) := processReadMesh vol rest
      (n :: ns, ar)

/-- CuraCLI.py lines 412-414 (`arrange`): `min_offset = edge_disallowed_size + 2`,
and `arrange_objects` is called with `min_offset = max(min_offset, 8)`. -/
def arrangeMinOffset (edgeDisallowedSize : Int) : Int :=
  max (edgeDisallowedSize + 2) 8

/-! ## FootprintRasterizer (spec §4.1; cura/Arranging/ShapeArray.py is not in the
checked tree, so the rasterizer is modelled from the spec) -/

/-- Consecutive edges of a polygon, the last vertex wrapping around to the first. -/
def polygonEdges (poly : List (Int × Int)) : List ((Int × Int) × (Int × Int)) :=
  poly.zip (poly.rotate 1)

/-- Modelled from the spec: crossing of one polygon edge with the horizontal scan
line at height `Y/2` (`Y` is kept odd so the line never passes through a vertex of
the integer polygon); the crossing abscissa is returned as an exact rational
`num/den`, normalised to `den > 0`. -/
def edgeCross (Y : Int) (e : (Int × Int) × (Int × Int)) : Option (Int × Int) :=
  let x1 := e.1.1
  let y1 := e.1.2
  let x2 := e.2.1
  let y2 := e.2.2
  if (2*y1 < Y ∧ Y < 2*y2) ∨ (2*y2 < Y ∧ Y < 2*y1) then
    let num := 2*x1*(y2 - y1) + (Y - 2*y1)*(x2 - x1)
    let den := 2*(y2 - y1)
    if den < 0 then some (-num, -den) else some (num, den)
  else none

/-- All edge crossings of a scan line, sorted by abscissa (rational comparison by
cross-multiplication, denominators positive). -/
def rowCrossings (poly : List (Int × Int)) (Y : Int) : List (Int × Int) :=
  List.insertionSort (fun a b => a.1 * b.2 ≤ b.1 * a.2)
    ((polygonEdges poly).filterMap (edgeCross Y))

/-- Even-odd pairing of sorted crossings into filled spans:
`[a, b, c, d, ...] ↦ [(a, b), (c, d), ...]`. -/
def pairSpans : List (Int × Int) → List ((Int × Int) × (Int × Int))
  | a :: b :: rest => (a, b) :: pairSpans rest
  | _ => []

/-- Conservative cell coverage (spec §4.1: a cell any part of which overlaps a filled
span is covered): the unit cell `[x, x+1]` meets the span `[nA/dA, nB/dB]`. -/
def cellCovered (spans : List ((Int × Int) × (Int × Int))) (x : Int) : Bool :=
  spans.any (fun s => decide (s.1.1 ≤ (x + 1) * s.1.2) && decide (x * s.2.2 ≤ s.2.1))

/-- Modelled from the spec: scanline fill of the polygon over the `w × h` cell grid
whose cell `(r, c)` spans `[xmin + c, xmin + c + 1] × [ymin + r, ymin + r + 1]`:
each row is filled between pairs of edge crossings of its midline (even-odd rule). -/
def scanFill (poly : List (Int × Int)) (xmin ymin : Int) (w h : Nat) :
    List (List Bool) :=
  (List.range h).map (fun r =>
    let spans := pairSpans (rowCrossings poly (2 * (ymin + (r : Int)) + 1))
    (List.range w).map (fun c => cellCovered spans (xmin + (c : Int))))

/-- Modelled from the spec: morphological dilation of a mask by `m` cells (Chebyshev
disk) — one of the two margin-expansion strategies §4.1 admits, erring toward
over-coverage.  The dilated mask gains a border of `m` cells on every side. -/
def dilate (mask : List (List Bool)) (m : Nat) : List (List Bool) :=
  let h := mask.length
  let w := (mask.headD []).length
  (List.range (h + 2*m)).map (fun r =>
    (List.range (w + 2*m)).map (fun c =>
      (List.range h).any (fun r0 =>
        (List.range w).any (fun c0 =>
          ((mask.getD r0 []).getD c0 false) && decide (r0 ≤ r) && decide (r ≤ r0 + 2*m) &&
            decide (c0 ≤ c) && decide (c ≤ c0 + 2*m)))))

/-- Modelled from the spec: `rasterize(polygon, margin) -> (mask, offset) | null`
(§4.1).  Fewer than 3 vertices is degenerate; otherwise the integer bounding box is
scanline-filled and the result dilated by the margin; a mask with no covered cell
(zero area) yields `null`.  The returned offset places the mask's cell `(0, 0)`
relative to the polygon's coordinate frame. -/
def rasterize (poly : List (Int × Int)) (margin : Nat) : Option (ShapeArray × Int × Int) :=
  if poly.length < 3 then none
  else
    let xs := poly.map Prod.fst
    let ys := poly.map Prod.snd
    let xmin := xs.foldl min (xs.headD 0)
    let xmax := xs.foldl max (xs.headD 0)
    let ymin := ys.foldl min (ys.headD 0)
    let ymax := ys.foldl max (ys.headD 0)
    let mask := dilate (scanFill poly xmin ymin (xmax - xmin).toNat (ymax - ymin).toNat) margin
    if mask.any (fun row => row.any (fun b => b)) then
      some (⟨mask⟩, xmin - (margin : Int), ymin - (margin : Int))
    else none

/-! ## Trace observables -/

/-- The `start_prio` arguments of the `bestSpot` queries in a trace, in order. -/
def queryPrios (evs : List AEvent) : List Nat :=
  evs.filterMap (fun e => match e with | AEvent.query _ sp => some sp | _ => none)

/-- The plate-plane components `(x, z)` of the fallback translations among the
results (the `Vector(200, center_y, -not_fit_count * 20)` operations of line 72). -/
def failCoords (rs : List PlaceResult) : List (Int × Int) :=
  rs.filterMap (fun r => match r with | PlaceResult.notFit x z => some (x, z) | _ => none)

/-! # Theorems -/

/-- An accepted anchor overlaps no occupied cell (unpacking `fitsAt`). -/
theorem fitsAt_no_overlap {g : Grid} {m : ShapeArray} {a : Nat × Nat}
    (h : g.fitsAt m a = true) : g.overlapsAt m a = false := by
  simp only [Grid.fitsAt, Bool.and_eq_true, Bool.not_eq_true'] at h
  exact h.2

/-- Any anchor returned by `bestSpot` passed the `fitsAt` test. -/
theorem bestSpot_fitsAt {g : Grid} {m : ShapeArray} {sp : Nat} {a : Nat × Nat} {p : Nat}
    (h : g.bestSpot m sp = some (a, p)) : g.fitsAt m a = true := by
  unfold Grid.bestSpot at h
  cases h1 : (g.sortedCells.filter (fun c => decide (sp ≤ g.prio c))).find? (g.fitsAt m) with
  | some c =>
    rw [h1] at h
    simp only [Option.some.injEq, Prod.mk.injEq] at h
    obtain ⟨rfl, -⟩ := h
    exact List.find?_some h1
  | none =>
    rw [h1] at h
    cases h2 : g.sortedCells.find? (g.fitsAt m) with
    | some c =>
      rw [h2] at h
      simp only [Option.some.injEq, Prod.mk.injEq] at h
      obtain ⟨rfl, -⟩ := h
      exact List.find?_some h2
    | none => rw [h2] at h; cases h

/-- C2: for every sequence of `place` calls on a grid and every query mask, when
`bestSpot` returns an anchor, stamping the query mask at that anchor overlaps no
cell that was occupied in the grid at query time. -/
theorem bestSpot_returns_nonoverlapping_anchor (w h : Nat)
    (ps : List ((Nat × Nat) × ShapeArray)) (q : ShapeArray) (sp : Nat)
    (a : Nat × Nat) (p : Nat)
    (hq : (applyPlaces (Grid.create w h) ps).bestSpot q sp = some (a, p)) :
    (applyPlaces (Grid.create w h) ps).overlapsAt q a = false :=
  fitsAt_no_overlap (bestSpot_fitsAt hq)

/-- Witness for C2: on a 3×3 grid with a 2×2 mask stamped at the origin, a 1×1
query finds the anchor `(2, 1)` (priority 5), which indeed overlaps nothing. -/
theorem bestSpot_returns_nonoverlapping_anchor_witness :
    (applyPlaces (Grid.create 3 3) [((0, 0), ⟨[[true, true], [true, true]]⟩)]).bestSpot
        ⟨[[true]]⟩ 0 = some ((2, 1), 5) ∧
    (applyPlaces (Grid.create 3 3) [((0, 0), ⟨[[true, true], [true, true]]⟩)]).overlapsAt
        ⟨[[true]]⟩ (2, 1) = false :=
  ⟨by decide, bestSpot_returns_nonoverlapping_anchor 3 3
    [((0, 0), ⟨[[true, true], [true, true]]⟩)] ⟨[[true]]⟩ 0 (2, 1) 5 (by decide)⟩

/-- C1 counterexample: in the loop body the `bestSpot` query receives the HULL mask
(source line 56: `arranger.bestSpot(hull_shape_arr, ...)`), not the offset mask: at
this concrete state the query event carries the 1×1 hull mask, which differs from
the 2×2 offset mask. -/
theorem arrange_query_mask_is_hull_not_offset :
    ((arrangeStep ⟨Grid.create 4 4, none, 0, 0⟩
        ⟨4, ⟨[[true, true], [true, true]]⟩, ⟨[[true]]⟩⟩).2.1.head? =
      some (AEvent.query ⟨[[true]]⟩ 0)) ∧
    (⟨[[true]]⟩ : ShapeArray) ≠ ⟨[[true, true], [true, true]]⟩ :=
  ⟨by decide, by decide⟩

/-- C1 amended: in the placement loop every `bestSpot` query carries the object's
hull (unexpanded) mask and every `place` stamp carries its offset (margin-expanded)
mask — the reverse of the claimed assignment (source lines 56 and 67). -/
theorem arrangeStep_queries_hull_stamps_offset (st : AState) (it : AItem) :
    (∀ m sp, AEvent.query m sp ∈ (arrangeStep st it).2.1 → m = it.hull) ∧
    (∀ m a, AEvent.stamp m a ∈ (arrangeStep st it).2.1 → m = it.off) := by
  rcases hbs : st.grid.bestSpot it.hull
      (if st.lastSize = some it.size then st.lastPriority else 0) with _ | ⟨a, p⟩ <;>
    (constructor <;> intro m x hm <;> simp only [arrangeStep, hbs] at hm <;> simp_all)

/-- Witness for the C1 amendment: at a concrete state the stamp event carries the
2×2 offset mask. -/
theorem arrangeStep_queries_hull_stamps_offset_witness :
    (AEvent.stamp ⟨[[true, true], [true, true]]⟩ (2, 2) ∈
      (arrangeStep ⟨Grid.create 4 4, none, 0, 0⟩
        ⟨4, ⟨[[true, true], [true, true]]⟩, ⟨[[true]]⟩⟩).2.1) ∧
    (⟨[[true, true], [true, true]]⟩ : ShapeArray) = ⟨[[true, true], [true, true]]⟩ :=
  ⟨by decide, (arrangeStep_queries_hull_stamps_offset ⟨Grid.create 4 4, none, 0, 0⟩
      ⟨4, ⟨[[true, true], [true, true]]⟩, ⟨[[true]]⟩⟩).2
      ⟨[[true, true], [true, true]]⟩ (2, 2) (by decide)⟩

/-- C9: a sentinel `bestSpot` result leaves all arranger and hint state unchanged:
the grid, `last_size` and `last_priority` keep their pre-query values, and no stamp
event is emitted (`place` is not called), so subsequent objects run against exactly
the pre-query grid and hint state. -/
theorem arrangeStep_sentinel_preserves_state (st : AState) (it : AItem)
    (hq : st.grid.bestSpot it.hull
        (if st.lastSize = some it.size then st.lastPriority else 0) = none) :
    (arrangeStep st it).1.grid = st.grid ∧
    (arrangeStep st it).1.lastSize = st.lastSize ∧
    (arrangeStep st it).1.lastPriority = st.lastPriority ∧
    ∀ m a, AEvent.stamp m a ∉ (arrangeStep st it).2.1 := by
  simp only [arrangeStep, hq]
  simp

/-- Witness for C9: a 3×3 hull cannot fit a 2×2 grid; the sentinel leaves the grid
untouched. -/
theorem arrangeStep_sentinel_preserves_state_witness :
    (Grid.create 2 2).bestSpot
        ⟨[[true, true, true], [true, true, true], [true, true, true]]⟩ 0 = none ∧
    (arrangeStep ⟨Grid.create 2 2, none, 0, 0⟩
      ⟨9, ⟨[[true, true, true], [true, true, true], [true, true, true]]⟩,
        ⟨[[true, true, true], [true, true, true], [true, true, true]]⟩⟩).1.grid =
      Grid.create 2 2 :=
  ⟨by decide, (arrangeStep_sentinel_preserves_state ⟨Grid.create 2 2, none, 0, 0⟩
      ⟨9, ⟨[[true, true, true], [true, true, true], [true, true, true]]⟩,
        ⟨[[true, true, true], [true, true, true], [true, true, true]]⟩⟩ (by decide)).1⟩

/-- C6 counterexample: three objects of equal sort `size` 4 on a 4×4 grid; after the
stable descending sort the run order is (third, second, first of the input).  The
second object in run order fails to place (5×5 hull), so it achieves no priority,
yet the third query's `start_priority` is 8 — the priority achieved by the earlier
successfully placed object — and not 0: the hint tracks the last *successful*
placement, not the immediately preceding object. -/
theorem start_priority_after_failed_predecessor :
    queryPrios (arrange_objects
        [some (⟨[[true, true], [true, true]]⟩, ⟨[[true]]⟩),
         some (⟨[[true, true], [true, true]]⟩,
           ⟨[[true, true, true, true, true], [true, true, true, true, true],
             [true, true, true, true, true], [true, true, true, true, true],
             [true, true, true, true, true]]⟩),
         some (⟨[[true, true], [true, true]]⟩, ⟨[[true]]⟩)]
        (Grid.create 4 4)).2.1 = [0, 8, 8] ∧
    (arrange_objects
        [some (⟨[[true, true], [true, true]]⟩, ⟨[[true]]⟩),
         some (⟨[[true, true], [true, true]]⟩,
           ⟨[[true, true, true, true, true], [true, true, true, true, true],
             [true, true, true, true, true], [true, true, true, true, true],
             [true, true, true, true, true]]⟩),
         some (⟨[[true, true], [true, true]]⟩, ⟨[[true]]⟩)]
        (Grid.create 4 4)).2.2 =
      [PlaceResult.placed 2 2, PlaceResult.notFit 200 0, PlaceResult.placed 2 1] ∧
    (8 : Nat) ≠ 0 :=
  ⟨by decide, by decide, by decide⟩

/-- C6 amended: the `start_priority` passed to `bestSpot` equals `last_priority` when
`last_size` equals the current object's size and 0 otherwise, where `last_size` and
`last_priority` describe the most recent *successfully placed* object: they are
updated on success and left unchanged when placement fails. -/
theorem arrangeStep_start_priority_hint (st : AState) (it : AItem) :
    ((arrangeStep st it).2.1.head? = some (AEvent.query it.hull
        (if st.lastSize = some it.size then st.lastPriority else 0))) ∧
    (∀ a p, st.grid.bestSpot it.hull
          (if st.lastSize = some it.size then st.lastPriority else 0) = some (a, p) →
        (arrangeStep st it).1.lastSize = some it.size ∧
        (arrangeStep st it).1.lastPriority = p) ∧
    (st.grid.bestSpot it.hull
          (if st.lastSize = some it.size then st.lastPriority else 0) = none →
        (arrangeStep st it).1.lastSize = st.lastSize ∧
        (arrangeStep st it).1.lastPriority = st.lastPriority) := by
  rcases hbs : st.grid.bestSpot it.hull
      (if st.lastSize = some it.size then st.lastPriority else 0) with _ | ⟨a, p⟩ <;>
    simp only [arrangeStep, hbs] <;> simp_all

/-- Witness for the C6 amendment: a first 1×1 object on an empty 4×4 grid places at
priority 8, which becomes the recorded `last_priority`. -/
theorem arrangeStep_start_priority_hint_witness :
    (Grid.create 4 4).bestSpot ⟨[[true]]⟩ 0 = some ((2, 2), 8) ∧
    (arrangeStep ⟨Grid.create 4 4, none, 0, 0⟩
      ⟨1, ⟨[[true]]⟩, ⟨[[true]]⟩⟩).1.lastPriority = 8 :=
  ⟨by decide, ((arrangeStep_start_priority_hint ⟨Grid.create 4 4, none, 0, 0⟩
      ⟨1, ⟨[[true]]⟩, ⟨[[true]]⟩⟩).2.1 (2, 2) 8 (by decide)).2⟩

/-- The fallback coordinates produced by a run of the placement loop, starting from
an arbitrary `not_fit_count`: the k-th failure is parked at `(200, -20·(c₀+k))`. -/
theorem arrangeGo_failCoords (items : List AItem) (st : AState) :
    ∃ n, failCoords (arrangeGo st items).2.2 =
      (List.range n).map (fun k => ((200 : Int), -(20 * ((st.notFitCount + k : Nat) : Int)))) := by
  induction items generalizing st with
  | nil => exact ⟨0, by simp [arrangeGo, failCoords]⟩
  | cons it rest ih =>
    rcases hbs : st.grid.bestSpot it.hull
        (if st.lastSize = some it.size then st.lastPriority else 0) with _ | ⟨a, p⟩
    · obtain ⟨n, hn⟩ := ih ⟨st.grid, st.lastSize, st.lastPriority, st.notFitCount + 1⟩
      refine ⟨n + 1, ?_⟩
      simp only [arrangeGo, arrangeStep, hbs]
      simp only [failCoords, List.filterMap_cons] at hn ⊢
      rw [hn, List.range_succ_eq_map, List.map_cons, List.map_map]
      congr 1
      apply List.map_congr_left
      intro k _
      have hck : st.notFitCount + 1 + k = st.notFitCount + Nat.succ k := by omega
      simp [Function.comp, hck]
    · obtain ⟨n, hn⟩ := ih ⟨st.grid.place a it.off, some it.size, p, st.notFitCount⟩
      refine ⟨n, ?_⟩
      simp only [arrangeGo, arrangeStep, hbs]
      simp only [failCoords, List.filterMap_cons] at hn ⊢
      exact hn

/-- C4: a sentinel `bestSpot` result raises nothing (the loop is a total function);
the failed objects are parked, in failure order, at `(200, 0), (200, -20),
(200, -40), …` — a fixed 20-unit step along one axis — so any two distinct failed
objects of the same call get distinct fallback positions. -/
theorem arrange_objects_fallback_positions
    (nodes : List (Option (ShapeArray × ShapeArray))) (g0 : Grid) :
    ∃ n, failCoords (arrange_objects nodes g0).2.2 =
        (List.range n).map (fun (k : Nat) => ((200 : Int), -(20 * (k : Int)))) ∧
      (failCoords (arrange_objects nodes g0).2.2).Nodup := by
  obtain ⟨n, hn⟩ := arrangeGo_failCoords (sortNodes (collectNodes nodes)) ⟨g0, none, 0, 0⟩
  have hn' : failCoords (arrange_objects nodes g0).2.2 =
      (List.range n).map (fun (k : Nat) => ((200 : Int), -(20 * (k : Int)))) := by
    rw [arrange_objects, hn]
    apply List.map_congr_left
    intro k _
    norm_num
  refine ⟨n, hn', ?_⟩
  rw [hn']
  apply List.Nodup.map ?_ (List.nodup_range n)
  intro x y hxy
  simp only [Prod.mk.injEq, true_and, neg_inj] at hxy
  omega

/-- C5: after rasterization, the surviving objects are processed in descending order
of offset-mask area (the sort of lines 39-41): whenever one object precedes another
in the placement order, its offset-mask area is at least as large. -/
theorem sortNodes_area_descending (nodes : List (Option (ShapeArray × ShapeArray))) :
    (sortNodes (collectNodes nodes)).Pairwise
      (fun a b => b.off.size ≤ a.off.size) := by
  have hsz : ∀ x ∈ collectNodes nodes, x.size = x.off.size := by
    intro x hx
    simp only [collectNodes, List.mem_filterMap] at hx
    obtain ⟨o, -, ho⟩ := hx
    cases o with
    | none => simp at ho
    | some p =>
      simp only [Option.map_some', Option.some.injEq] at ho
      subst ho
      rfl
  haveI : IsTotal AItem (fun a b => a.size ≤ b.size) :=
    ⟨fun a b => Nat.le_total a.size b.size⟩
  haveI : IsTrans AItem (fun a b => a.size ≤ b.size) :=
    ⟨fun _ _ _ hab hbc => le_trans hab hbc⟩
  have hsorted :=
    List.sorted_insertionSort (fun a b : AItem => a.size ≤ b.size) (collectNodes nodes)
  rw [sortNodes, List.pairwise_reverse]
  refine List.Pairwise.imp_of_mem ?_ hsorted
  intro a b ha hb hab
  rw [← hsz a ((List.mem_insertionSort _).mp ha), ← hsz b ((List.mem_insertionSort _).mp hb)]
  exact hab

/-- C3 counterexample: in `process_read_mesh`, a node whose conversion yields null
for both masks hits `break` (line 79): with input `[bad, good]` the good node is
neither arranged nor returned, although on its own it is arranged — so arrangement
does NOT continue for the remaining objects of the list at this call site. -/
theorem processReadMesh_break_skips_remaining :
    processReadMesh (some ⟨200, 200⟩)
      [⟨true, none, none, none⟩, ⟨true, none, some ⟨[[true]]⟩, some ⟨[[true]]⟩⟩] =
      ([], []) ∧
    processReadMesh (some ⟨200, 200⟩)
      [⟨true, none, some ⟨[[true]]⟩, some ⟨[[true]]⟩⟩] =
      ([⟨true, none, some ⟨[[true]]⟩, some ⟨[[true]]⟩⟩],
        [⟨true, none, some ⟨[[true]]⟩, some ⟨[[true]]⟩⟩]) :=
  ⟨by decide, by decide⟩

/-- C3 amended: in `arrange_objects` (lines 33-36) a node whose conversion failed is
skipped and the remaining nodes are arranged exactly as if it were absent
(non-fatal, arrangement continues); in `process_read_mesh` (line 79), by contrast, a
sliceable node passing the bounding-box gate whose conversion yields null for both
masks terminates the whole loop, skipping every remaining node (the call still
returns normally — no exception — but remaining objects are not processed). -/
theorem rasterization_failure_skip_behavior :
    (∀ rest g0, arrange_objects (none :: rest) g0 = arrange_objects rest g0) ∧
    (∀ vol b rest, b.sliceable = true → shouldArrange b.bbox vol = true →
      b.offsetArr = none → b.hullArr = none →
      processReadMesh vol (b :: rest) = ([], [])) := by
  constructor
  · intro rest g0
    simp [arrange_objects, collectNodes]
  · intro vol b rest h1 h2 h3 h4
    simp [processReadMesh, h1, h2, h3, h4]

/-- Witness for the C3 amendment: a skipped conversion (`none`) before one good node
leaves the arrangement of the good node unchanged, and a sliceable both-masks-null
node ends the `process_read_mesh` loop at once. -/
theorem rasterization_failure_skip_behavior_witness :
    arrange_objects [none, some (⟨[[true]]⟩, ⟨[[true]]⟩)] (Grid.create 4 4) =
      arrange_objects [some (⟨[[true]]⟩, ⟨[[true]]⟩)] (Grid.create 4 4) ∧
    processReadMesh (some ⟨200, 200⟩) [⟨true, none, none, none⟩] = ([], []) :=
  ⟨rasterization_failure_skip_behavior.1 [some (⟨[[true]]⟩, ⟨[[true]]⟩)] (Grid.create 4 4),
    rasterization_failure_skip_behavior.2 (some ⟨200, 200⟩) ⟨true, none, none, none⟩ []
      rfl (by decide) rfl rfl⟩

/-- C7 counterexample: a 10×10 node in a 200×200 build volume is guaranteed to fit,
yet the line-73 gate sends it to the placement query (`shouldArrange = true`) and the
CuraCLI filter keeps it for arrangement — the bounding-box test does not skip objects
guaranteed to fit. -/
theorem bbox_gate_queries_fitting_node :
    guaranteedToFit ⟨10, 10⟩ ⟨200, 200⟩ = true ∧
    shouldArrange (some ⟨10, 10⟩) (some ⟨200, 200⟩) = true ∧
    cliKeepsNode ⟨10, 10⟩ ⟨200, 200⟩ = true := by
  decide

/-- C7 amended: the caller's bounding-box test skips the placement query exactly for
objects blatantly too big to fit: the `process_read_mesh` gate withholds the query
iff both bounding boxes exist and the node is at least as wide AND as deep as the
build volume, and the CuraCLI filter drops a node iff it is at least as wide and as
deep as the volume. -/
theorem bbox_gate_skips_exactly_too_big (nb vb : Option BBox) (n v : BBox) :
    (shouldArrange nb vb = false ↔
      ∃ nn vv, nb = some nn ∧ vb = some vv ∧ vv.width ≤ nn.width ∧ vv.depth ≤ nn.depth) ∧
    (cliKeepsNode n v = false ↔ v.width ≤ n.width ∧ v.depth ≤ n.depth) := by
  constructor
  · cases nb with
    | none => simp [shouldArrange]
    | some nn =>
      cases vb with
      | none => simp [shouldArrange]
      | some vv =>
        simp only [shouldArrange, Bool.or_eq_false_iff, decide_eq_false_iff_not, not_lt,
          Option.some.injEq]
        constructor
        · rintro ⟨h1, h2⟩
          exact ⟨nn, vv, rfl, rfl, h1, h2⟩
        · rintro ⟨nn', vv', rfl, rfl, h1, h2⟩
          exact ⟨h1, h2⟩
  · simp [cliKeepsNode]

/-- C8: `rasterize` is deterministic — two calls with the same polygon and the same
margin produce bit-identical results. -/
theorem rasterize_deterministic (p₁ p₂ : List (Int × Int)) (m₁ m₂ : Nat)
    (hp : p₁ = p₂) (hm : m₁ = m₂) : rasterize p₁ m₁ = rasterize p₂ m₂ := by
  rw [hp, hm]

/-- Witness for C8 at a concrete triangle and margin 1. -/
theorem rasterize_deterministic_witness :
    ([((0 : Int), (0 : Int)), (4, 0), (0, 4)] = [((0 : Int), (0 : Int)), (4, 0), (0, 4)]) ∧
    rasterize [((0 : Int), (0 : Int)), (4, 0), (0, 4)] 1 =
      rasterize [((0 : Int), (0 : Int)), (4, 0), (0, 4)] 1 :=
  ⟨rfl, rasterize_deterministic _ _ 1 1 rfl rfl⟩

/-- C10: every arrangement initiated through `CuraCLI.arrange` passes
`max(edge_disallowed_size + 2, 8)` as the margin, which is never below 8 units,
whatever the machine's edge-disallowed size. -/
theorem arrange_min_offset_at_least_eight (e : Int) : 8 ≤ arrangeMinOffset e :=
  le_max_right _ _

end Cura
